import Mathlib

/-!
Verification development for the twinmodules job-orchestration core:
the job-set reconciliation step of `autoscale_sensors`
(twinmodules/core/components.py), the completion poller
`wait_for_jobs_finish` and helpers (twinmodules/AWSModules/AWSBatch.py),
and the S3 inventory helpers (twinmodules/AWSModules/AWS_S3.py).

External AWS calls are modelled as oracles passed in as function
arguments (status-query responses, listing pages, error outcomes).
Python exceptions are modelled with `Option`/`Except`/`PyResult`:
a `none`/`error`/`raised` result is a raised exception.
-/

namespace Twinmodules

/-- Model of Python `int(s)`: an optional sign followed by a nonempty
run of decimal digits parses to that integer; anything else raises
`ValueError`, modelled as `none`. -/
def pyInt? (s : String) : Option Int :=
  let cs := s.toList
  let signDigits : Int × List Char :=
    match cs with
    | '-' :: rest => (-1, rest)
    | '+' :: rest => (1, rest)
    | _ => (1, cs)
  let sign := signDigits.1
  let ds := signDigits.2
  if !ds.isEmpty && ds.all Char.isDigit then
    some (sign * Int.ofNat (ds.foldl (fun n c => 10 * n + (c.toNat - '0'.toNat)) 0))
  else
    none

/-- Python `s.split(sep)` on character lists, for a nonempty
separator: cut at each leftmost, non-overlapping occurrence.  The fuel
argument (instantiated with the string length) only makes the
recursion structural; it never runs out on a nonempty separator. -/
def pySplitGo (ps : List Char) : Nat → List Char → List (List Char)
  | _, [] => [[]]
  | 0, cs => [cs]
  | fuel + 1, c :: cs =>
    if ps.isPrefixOf (c :: cs) then
      [] :: pySplitGo ps fuel (List.drop ps.length (c :: cs))
    else
      match pySplitGo ps fuel cs with
      | [] => [[c]]
      | p :: rest => (c :: p) :: rest

/-- Python `s.split(sep)` for a nonempty separator. -/
def pySplit (s sep : String) : List String :=
  (pySplitGo sep.toList s.toList.length s.toList).map List.asString

/-- Python `s.split(sep)[-1]` for a nonempty separator. -/
def splitLast (s sep : String) : String :=
  (pySplit s sep).getLastD ""

/-- Python `s.split(sep)[0]` for a nonempty separator. -/
def splitHead (s sep : String) : String :=
  (pySplit s sep).headD ""

/-- `int(x[0].split('-')[-1])` — correlation key of a tracked job's
display name (components.py line 133). -/
def running_key (name : String) : Option Int :=
  pyInt? (splitLast name "-")

/-- `int(x.split('_')[-1].split('.')[0])` — correlation key of an
inventory object name (components.py line 137). -/
def data_key (objname : String) : Option Int :=
  pyInt? (splitHead (splitLast objname "_") ".")

/-- Python `os.path.basename`. -/
def basename (p : String) : String :=
  splitLast p "/"

/-- Python `'virtual-sensor' in s` (substring containment; for a
nonempty pattern, `s.split(pat)` has more than one part iff the
pattern occurs in `s`). -/
def containsVS (s : String) : Bool :=
  (pySplit s "virtual-sensor").length != 1

/-- A Python list comprehension applying a function that can raise:
the whole comprehension raises (`none`) as soon as one element does. -/
def mapOpt (f : α → Option β) : List α → Option (List β)
  | [] => some []
  | x :: xs =>
    match f x, mapOpt f xs with
    | some y, some ys => some (y :: ys)
    | _, _ => none

/-- One object entry of an S3 `list_objects` response page
(`rep['Key']`, `rep['Size']`). -/
structure S3Obj where
  key : String
  size : Nat
  deriving DecidableEq, Repr

/-- `s3_all_contents` (AWS_S3.py lines 59-70): walk the paginator's
response pages; a page without a `Contents` field (modelled as `none`)
raises `KeyError`; otherwise keep the keys of entries with `Size > 1`.
The accumulator mirrors `lst.append` across pages. -/
def s3_all_contents_go (pages : List (Option (List S3Obj))) (acc : List String) :
    Option (List String) :=
  match pages with
  | [] => some acc
  | none :: _ => none
  | some reps :: rest =>
      s3_all_contents_go rest (acc ++ (reps.filter (fun r => 1 < r.size)).map S3Obj.key)

/-- `s3_all_contents` entry point: the paginator's pages are the input. -/
def s3_all_contents (pages : List (Option (List S3Obj))) : Option (List String) :=
  s3_all_contents_go pages []

/-- The two lists produced by the reconciliation step of
`autoscale_sensors`: job ids passed to `kill_jobs`, and basenames of
the inventory objects submitted via `job_spin`. -/
structure DiffResult where
  kill_list : List String
  submit_list : List String
  deriving DecidableEq, Repr

/-- The tracked jobs the reconciliation cares about: the
`'virtual-sensor' in x[0]` filter of components.py line 132 (applied
inside `if running_jobs:`, so the empty input stays empty). -/
def filteredJobs (running_jobs : List (String × String)) : List (String × String) :=
  if running_jobs.isEmpty then [] else
    running_jobs.filter (fun x => containsVS x.1)

/-- `deadjobs` at the job-id stage (components.py 140-142): tracked
jobs re-parse their key and are killed when it is among the keys with
no matching inventory object; `kill_jobs` is only reached inside
`if running_jobs:`. -/
def killList (filtered : List (String × String))
    (running_id idnum : List Int) : List String :=
  let deadkeys := running_id.filter (fun k => !(idnum.contains k))
  if filtered.isEmpty then [] else
    (filtered.filter (fun x =>
      match running_key x.1 with
      | some k => deadkeys.contains k
      | none => false)).map Prod.snd

/-- `newjobs` (components.py 146-147): basenames of the inventory
objects whose key (`idnum[i]`, same index) is not a tracked key. -/
def submitList (incoming : List String) (running_id idnum : List Int) : List String :=
  (((incoming.map basename).zip idnum).filter
    (fun p => !(running_id.contains p.2))).map Prod.fst

/-- The reconciliation step of `autoscale_sensors`
(components.py lines 125-149).  `running_jobs` is the
`get_running_jobs()` result (display name, job id); `pages` are the S3
listing pages consumed by `s3_all_contents`.  Mirrors the source:
filter tracked jobs to the virtual sensors, parse their keys
(`running_id`), list and parse the inventory (`idnum`), kill tracked
jobs whose key is not expected, submit expected items whose key is not
tracked.  Any parse failure or listing `KeyError` raises (`none`). -/
def autoscale_run (running_jobs : List (String × String))
    (pages : List (Option (List S3Obj))) : Option DiffResult :=
  match mapOpt (fun x => running_key x.1) (filteredJobs running_jobs) with
  | none => none
  | some running_id =>
    match s3_all_contents pages with
    | none => none
    | some incoming =>
      match mapOpt data_key incoming with
      | none => none
      | some idnum =>
        some ⟨killList (filteredJobs running_jobs) running_id idnum,
              submitList incoming running_id idnum⟩

/-! ## Completion poller (`wait_for_jobs_finish`, AWSBatch.py 728-779) -/

/-- One polling round of `wait_for_jobs_finish`.  `q` is the status
query of this round: `_describe_jobs` passes `running_jobs[:100]` to
`describe_jobs` and returns (job id, status) entries.  Every id
reported with status FAILED or SUCCEEDED is deleted from the tracked
list (first occurrence, as `running_jobs.index`/`del` do). -/
def pollStep (q : List String → List (String × String))
    (running : List String) : List String :=
  let status := q (running.take 100)
  let done_lst := (status.filter
    (fun x => x.2 == "FAILED" || x.2 == "SUCCEEDED")).map Prod.fst
  done_lst.foldl (fun rj d => rj.erase d) running

/-- Tracked list after `r` rounds of the `while len(running_jobs) > 0`
loop, starting from `running` (the deduplicated input).  `query r` is
the status-query oracle of round `r`.  Once the list is empty the loop
has returned and the state stays empty. -/
def pollState (query : Nat → List String → List (String × String))
    (running : List String) : Nat → List String
  | 0 => running
  | r + 1 =>
    let prev := pollState query running r
    if prev.isEmpty then prev else pollStep (query r) prev

/-- The argument lists of the `describe_jobs` calls issued in the round
that starts from tracked list `running`: `_describe_jobs` is called
once per round and passes `running_jobs[:100]` (AWSBatch.py 723-726,
757). -/
def describeBatches (running : List String) : List (List String) :=
  [running.take 100]

/-! ## Retry/backoff wrapper.

Modelled from the spec: the `exponential_backoff` decorator is imported
from `twinmodules.core.util`, whose definition is not part of the
sources here (AWSBatch.py line 10 only imports it).  Per the spec
(§4.3): on a failure whose error message contains the rate-limit
marker, sleep an exponentially increasing delay and retry up to a
maximum attempt count; on any other failure propagate immediately. -/

/-- Rate-limit marker test: the error message contains the throttling
marker string (the repository elsewhere matches "Too Many Requests"). -/
def containsMarker (e : String) : Bool :=
  (pySplit e "Too Many Requests").length != 1

/-- Modelled from the spec: run of the `exponential_backoff`-wrapped
call.  `call i` is the outcome of attempt `i`; `n` attempts remain;
returns the final outcome together with the list of sleep delays
(`base * 2 ^ i` before retry `i+1`). -/
def backoffRun (call : Nat → Except String α) (base : Nat) :
    Nat → Nat → Except String α × List Nat
  | 0, _ => (Except.error "retries exhausted", [])
  | n + 1, i =>
    match call i with
    | Except.ok v => (Except.ok v, [])
    | Except.error e =>
      if containsMarker e && !(n == 0) then
        let r := backoffRun call base n (i + 1)
        (r.1, base * 2 ^ i :: r.2)
      else (Except.error e, [])

/-! ## Error propagation models (claim about swallowing) -/

/-- Outcome of a Python call: normal return or raised exception. -/
inductive PyResult (α : Type) where
  | ret (v : α)
  | raised (e : String)
  deriving DecidableEq, Repr

/-- Outcome of the underlying boto3 call inside `s3_object_exist`:
success, a `ClientError` carrying an error code, or any other
exception. -/
inductive S3Outcome where
  | ok
  | clientError (code : String)
  | otherError (msg : String)
  deriving DecidableEq, Repr

/-- `s3_object_exist` (AWS_S3.py 11-38): returns True on success;
catches `ClientError` and returns False when the code is `NoSuchKey`;
for any other `ClientError` the handler matches but neither returns
nor re-raises, so the function falls through and returns `None`
(modelled `ret none`).  Exceptions other than `ClientError` are not
caught and propagate. -/
def s3_object_exist : S3Outcome → PyResult (Option Bool)
  | S3Outcome.ok => PyResult.ret (some true)
  | S3Outcome.clientError code =>
      if code == "NoSuchKey" then PyResult.ret (some false) else PyResult.ret none
  | S3Outcome.otherError m => PyResult.raised m

/-- `terminateBatch` (AWSBatch.py 666-719).  Arguments are the
outcomes of the individual boto3 calls: `updQ` for `update_job_queue`,
`delQ i` for the i-th `delete_job_queue` attempt, `updCE` for
`update_compute_environment`, `delCE i` for the i-th
`delete_compute_environment` attempt.  The `update_job_queue` error is
caught and printed; both delete loops run exactly 5 attempts with a
bare `except` that prints and continues; only
`update_compute_environment` is outside every `try`, so only its
failure raises.  Returns whether the compute-environment delete
eventually succeeded (the `done` flag tested at line 716). -/
def terminateBatch_run (updQ : Except String Unit)
    (delQ : Nat → Except String Unit)
    (updCE : Except String Unit)
    (delCE : Nat → Except String Unit) : PyResult Bool :=
  let _ := match updQ with
    | Except.ok _ => ()
    | Except.error _ => ()
  let _ := (List.range 5).map (fun i => delQ i)
  match updCE with
  | Except.error e => PyResult.raised e
  | Except.ok _ =>
    let done := (List.range 5).foldl
      (fun d i => match delCE i with
        | Except.ok _ => true
        | Except.error _ => d) false
    PyResult.ret done

/-- Python `'already exists' in str(e)` — the idempotent-condition
test used by `_generateQueue` (AWSBatch.py 652). -/
def containsAlreadyExists (e : String) : Bool :=
  (pySplit e "already exists").length != 1

/-- The `for _ in range(3)` attempt loop of `_generateQueue`
(AWSBatch.py 646-659), returning the final `done` flag.  `create i` is
the outcome of the i-th `create_job_queue` call.  Success sets `done`
but does not break (the loop keeps going); an "already exists" error
sets `done` and breaks; any other error is caught, printed, slept on
and retried, leaving `done` unchanged. -/
def generateQueue_go (create : Nat → Except String Unit) :
    Nat → Nat → Bool → Bool
  | 0, _, done => done
  | n + 1, i, done =>
    match create i with
    | Except.ok _ => generateQueue_go create n (i + 1) true
    | Except.error e =>
      if containsAlreadyExists e then true
      else generateQueue_go create n (i + 1) done

/-- `_generateQueue` (AWSBatch.py 637-664): after the attempt loop, if
`done` is still false it raises a fresh
`ValueError("ERROR: unable to create job queue ...")` — the original
errors are discarded — otherwise it returns normally. -/
def generateQueue_run (create : Nat → Except String Unit) : PyResult Unit :=
  if generateQueue_go create 3 0 false then PyResult.ret ()
  else PyResult.raised
    "ERROR: unable to create job queue for the AWS Batch compute environment."

/-! ## Active job lister (`get_running_jobs`, AWSBatch.py 807-829) -/

/-- A job entry of a `list_jobs` response page
(`job['jobName']`, `job['jobId']`, `job['status']`). -/
structure JobEntry where
  name : String
  id : String
  status : String
  deriving DecidableEq, Repr

/-- The status filters iterated by `get_running_jobs`. -/
def jobStatusList : List String :=
  ["SUBMITTED", "PENDING", "RUNNABLE", "STARTING", "RUNNING"]

/-- `get_running_jobs`: for each status filter, walk the paginator's
pages (`pages s`); a page without a `jobSummaryList` field (`none`) is
skipped; entries are appended as `[jobName, jobId]` pairs. -/
def get_running_jobs (pages : String → List (Option (List JobEntry))) :
    List (String × String) :=
  jobStatusList.foldl (fun lst status =>
    (pages status).foldl (fun lst page =>
      match page with
      | some jobs => lst ++ jobs.map (fun j => (j.name, j.id))
      | none => lst) lst) []

/-- Concatenation of the present pages of one paginator run (the jobs
the backing service actually returned for one status filter). -/
def pagesJoin : List (Option (List JobEntry)) → List JobEntry
  | [] => []
  | none :: rest => pagesJoin rest
  | some jobs :: rest => jobs ++ pagesJoin rest

/-- Concatenation of the object entries of the S3 listing pages (the
objects the backing service reported under the prefix). -/
def allObjs : List (Option (List S3Obj)) → List S3Obj
  | [] => []
  | none :: rest => allObjs rest
  | some reps :: rest => reps ++ allObjs rest

/-! ## State after one reconciliation run (for the idempotence claim).

These model the world between two `autoscale_sensors` runs: killed
jobs leave the tracked set, submitted jobs enter it under the display
name `job_spin` gives them (components.py 106-122). -/

/-- `input_data_file.split('_')[-1].split('.')[0]` — the raw string
`train_i` used in the submitted job's display name. -/
def train_str (file : String) : String :=
  splitHead (splitLast file "_") "."

/-- Display name of the job `job_spin` submits for inventory item
basename `file`: `'twinflow-batch-virtual-sensor-' + str(train_i)`. -/
def submitted_name (file : String) : String :=
  "twinflow-batch-virtual-sensor-" ++ train_str file

/-- Does some inventory object parse to key `k`? -/
def keyExpected (incoming : List String) (k : Int) : Bool :=
  incoming.any (fun y => data_key y == some k)

/-- Tracked virtual-sensor jobs that survive a reconciliation run:
those whose key is among the expected keys (the rest were killed). -/
def survivors (rj : List (String × String)) (incoming : List String) :
    List (String × String) :=
  (filteredJobs rj).filter (fun x =>
    match running_key x.1 with
    | some k => keyExpected incoming k
    | none => false)

/-- Handles of the jobs submitted by a run: one per submit-list entry,
named by `submitted_name`, with a backend-assigned id `newId b`. -/
def submittedJobs (res : DiffResult) (newId : String → String) :
    List (String × String) :=
  res.submit_list.map (fun b => (submitted_name b, newId b))

/-- Tracked set seen by a second run after the first run's kills and
submissions have taken effect and the inventory is unchanged. -/
def nextTracked (rj : List (String × String)) (incoming : List String)
    (res : DiffResult) (newId : String → String) : List (String × String) :=
  survivors rj incoming ++ submittedJobs res newId

/-! ## Concrete fixtures used by witnesses and counterexamples -/

/-- 250 distinct job handles. -/
def jobs250 : List String :=
  (List.range 250).map (fun i => "job" ++ toString i)

/-- A status-query oracle that reports every queried handle RUNNING
(nothing terminal), so nothing is ever removed. -/
def queryAllRunning : Nat → List String → List (String × String) :=
  fun _ l => l.map (fun j => (j, "RUNNING"))

/-- A status-query oracle that reports every queried handle SUCCEEDED. -/
def queryAllDone : Nat → List String → List (String × String) :=
  fun _ l => l.map (fun j => (j, "SUCCEEDED"))

/-! ## Helper lemmas about `mapOpt` -/

theorem mapOpt_eq_none_of_mem {α β : Type} {f : α → Option β} {l : List α} {x : α}
    (hx : x ∈ l) (hf : f x = none) : mapOpt f l = none := by
  induction l with
  | nil => cases hx
  | cons a as ih =>
    rcases List.mem_cons.mp hx with h | h
    · subst h
      simp only [mapOpt, hf]
    · rw [mapOpt, ih h]
      cases f a <;> rfl

theorem mapOpt_mem_iff {α β : Type} {f : α → Option β} {l : List α} {ks : List β}
    (h : mapOpt f l = some ks) (k : β) : k ∈ ks ↔ ∃ x ∈ l, f x = some k := by
  induction l generalizing ks with
  | nil =>
    simp only [mapOpt, Option.some.injEq] at h
    subst h
    simp
  | cons a as ih =>
    rw [mapOpt] at h
    cases hfa : f a with
    | none => rw [hfa] at h; exact absurd h (by simp)
    | some y =>
      rw [hfa] at h
      cases hrest : mapOpt f as with
      | none => rw [hrest] at h; exact absurd h (by simp)
      | some ys =>
        rw [hrest] at h
        simp only [Option.some.injEq] at h
        subst h
        constructor
        · intro hk
          rcases List.mem_cons.mp hk with hk | hk
          · exact ⟨a, List.mem_cons_self a as, by rw [hfa, hk]⟩
          · rcases (ih hrest).mp hk with ⟨x, hxl, hxk⟩
            exact ⟨x, List.mem_cons_of_mem a hxl, hxk⟩
        · rintro ⟨x, hxl, hxk⟩
          rcases List.mem_cons.mp hxl with hx | hx
          · subst hx
            rw [hfa] at hxk
            exact List.mem_cons.mpr (Or.inl (Option.some.inj hxk).symm)
          · exact List.mem_cons_of_mem y ((ih hrest).mpr ⟨x, hx, hxk⟩)

theorem exists_key_of_mem {α β : Type} {f : α → Option β} {l : List α} {ks : List β}
    (h : mapOpt f l = some ks) {x : α} (hx : x ∈ l) :
    ∃ k, f x = some k ∧ k ∈ ks := by
  induction l generalizing ks with
  | nil => cases hx
  | cons a as ih =>
    rw [mapOpt] at h
    cases hfa : f a with
    | none => rw [hfa] at h; exact absurd h (by simp)
    | some y =>
      rw [hfa] at h
      cases hrest : mapOpt f as with
      | none => rw [hrest] at h; exact absurd h (by simp)
      | some ys =>
        rw [hrest] at h
        simp only [Option.some.injEq] at h
        subst h
        rcases List.mem_cons.mp hx with hx | hx
        · subst hx
          exact ⟨y, hfa, List.mem_cons_self y ys⟩
        · rcases ih hrest hx with ⟨k, hk1, hk2⟩
          exact ⟨k, hk1, List.mem_cons_of_mem y hk2⟩

theorem mapOpt_length {α β : Type} {f : α → Option β} {l : List α} {ks : List β}
    (h : mapOpt f l = some ks) : ks.length = l.length := by
  induction l generalizing ks with
  | nil =>
    simp only [mapOpt, Option.some.injEq] at h
    subst h; rfl
  | cons a as ih =>
    rw [mapOpt] at h
    cases hfa : f a with
    | none => rw [hfa] at h; exact absurd h (by simp)
    | some y =>
      rw [hfa] at h
      cases hrest : mapOpt f as with
      | none => rw [hrest] at h; exact absurd h (by simp)
      | some ys =>
        rw [hrest] at h
        simp only [Option.some.injEq] at h
        subst h
        simp [ih hrest]

theorem mapOpt_zip_mem {α β γ : Type} {f : α → Option β} {g : α → γ}
    {l : List α} {ks : List β} (h : mapOpt f l = some ks) (b : γ) (k : β) :
    (b, k) ∈ (l.map g).zip ks ↔ ∃ x ∈ l, b = g x ∧ f x = some k := by
  induction l generalizing ks with
  | nil =>
    simp only [mapOpt, Option.some.injEq] at h
    subst h
    simp
  | cons a as ih =>
    rw [mapOpt] at h
    cases hfa : f a with
    | none => rw [hfa] at h; exact absurd h (by simp)
    | some y =>
      rw [hfa] at h
      cases hrest : mapOpt f as with
      | none => rw [hrest] at h; exact absurd h (by simp)
      | some ys =>
        rw [hrest] at h
        simp only [Option.some.injEq] at h
        subst h
        simp only [List.map_cons, List.zip_cons_cons]
        constructor
        · intro hmem
          rcases List.mem_cons.mp hmem with heq | hmem
          · rcases Prod.mk.injEq .. ▸ heq with ⟨hb, hk⟩
            exact ⟨a, List.mem_cons_self a as, hb, by rw [hfa, hk]⟩
          · rcases (ih hrest).mp hmem with ⟨x, hxl, hb, hk⟩
            exact ⟨x, List.mem_cons_of_mem a hxl, hb, hk⟩
        · rintro ⟨x, hxl, hb, hk⟩
          rcases List.mem_cons.mp hxl with hx | hx
          · subst hx
            rw [hfa] at hk
            exact List.mem_cons.mpr (Or.inl (by rw [hb, Option.some.inj hk]))
          · exact List.mem_cons.mpr (Or.inr ((ih hrest).mpr ⟨x, hx, hb, hk⟩))

theorem mapOpt_append_some {α β : Type} {f : α → Option β}
    {l₁ l₂ : List α} {ks₁ ks₂ : List β}
    (h₁ : mapOpt f l₁ = some ks₁) (h₂ : mapOpt f l₂ = some ks₂) :
    mapOpt f (l₁ ++ l₂) = some (ks₁ ++ ks₂) := by
  induction l₁ generalizing ks₁ with
  | nil =>
    simp only [mapOpt, Option.some.injEq] at h₁
    subst h₁
    simpa using h₂
  | cons a as ih =>
    rw [mapOpt] at h₁
    cases hfa : f a with
    | none => rw [hfa] at h₁; exact absurd h₁ (by simp)
    | some y =>
      rw [hfa] at h₁
      cases hrest : mapOpt f as with
      | none => rw [hrest] at h₁; exact absurd h₁ (by simp)
      | some ys =>
        rw [hrest] at h₁
        simp only [Option.some.injEq] at h₁
        subst h₁
        rw [List.cons_append, mapOpt, hfa, ih hrest]
        rfl

theorem mapOpt_of_forall_isSome {α β : Type} {f : α → Option β} {l : List α}
    (h : ∀ x ∈ l, (f x).isSome) : ∃ ks, mapOpt f l = some ks := by
  induction l with
  | nil => exact ⟨[], rfl⟩
  | cons a as ih =>
    rcases ih (fun x hx => h x (List.mem_cons_of_mem a hx)) with ⟨ks, hks⟩
    rcases Option.isSome_iff_exists.mp (h a (List.mem_cons_self a as)) with ⟨y, hy⟩
    exact ⟨y :: ks, by rw [mapOpt, hy, hks]⟩

/-! ## Helper lemmas about the reconciliation step -/

theorem killList_mem {filtered : List (String × String)}
    {running_id idnum : List Int} {incoming : List String}
    (hrid : mapOpt (fun x => running_key x.1) filtered = some running_id)
    (hid : mapOpt data_key incoming = some idnum)
    (jid : String) :
    jid ∈ killList filtered running_id idnum ↔
      ∃ x ∈ filtered, x.2 = jid ∧
        ∃ k, running_key x.1 = some k ∧ ¬ ∃ y ∈ incoming, data_key y = some k := by
  have hkill : killList filtered running_id idnum =
      (filtered.filter (fun x =>
        match running_key x.1 with
        | some k => (running_id.filter (fun k => !(idnum.contains k))).contains k
        | none => false)).map Prod.snd := by
    rw [killList]
    by_cases hemp : filtered.isEmpty
    · rw [if_pos hemp]
      rw [List.isEmpty_iff] at hemp
      subst hemp
      rfl
    · rw [if_neg hemp]
  rw [hkill]
  simp only [List.mem_map, List.mem_filter]
  constructor
  · rintro ⟨x, ⟨hxf, hcond⟩, hsnd⟩
    refine ⟨x, hxf, hsnd, ?_⟩
    cases hrk : running_key x.1 with
    | none => rw [hrk] at hcond; cases hcond
    | some k =>
      rw [hrk] at hcond
      have hkmem : k ∈ running_id.filter (fun k => !(idnum.contains k)) := by
        simpa using hcond
      rw [List.mem_filter] at hkmem
      have hknotid : ¬ k ∈ idnum := by simpa using hkmem.2
      refine ⟨k, rfl, ?_⟩
      rw [← mapOpt_mem_iff hid k]
      exact hknotid
  · rintro ⟨x, hxf, hsnd, k, hrk, hnot⟩
    refine ⟨x, ⟨hxf, ?_⟩, hsnd⟩
    rw [hrk]
    have hkrid : k ∈ running_id := by
      rcases exists_key_of_mem hrid hxf with ⟨k', hk', hk'mem⟩
      rw [hrk] at hk'
      rw [← Option.some.inj hk'] at hk'mem
      exact hk'mem
    have hknotid : ¬ k ∈ idnum := by
      rw [mapOpt_mem_iff hid k]
      exact hnot
    have : k ∈ running_id.filter (fun k => !(idnum.contains k)) := by
      rw [List.mem_filter]
      exact ⟨hkrid, by simpa using hknotid⟩
    simpa using this

theorem submitList_mem {filtered : List (String × String)}
    {running_id idnum : List Int} {incoming : List String}
    (hrid : mapOpt (fun x => running_key x.1) filtered = some running_id)
    (hid : mapOpt data_key incoming = some idnum)
    (b : String) :
    b ∈ submitList incoming running_id idnum ↔
      ∃ y ∈ incoming, basename y = b ∧
        ∃ k, data_key y = some k ∧ ¬ ∃ x ∈ filtered, running_key x.1 = some k := by
  rw [submitList]
  simp only [List.mem_map, List.mem_filter]
  constructor
  · rintro ⟨⟨b', k⟩, ⟨hzip, hcond⟩, hfst⟩
    rcases (mapOpt_zip_mem hid b' k).mp hzip with ⟨y, hy, hb', hk⟩
    refine ⟨y, hy, ?_, k, hk, ?_⟩
    · rw [← hb']
      exact hfst
    · rw [← mapOpt_mem_iff hrid k]
      simpa using hcond
  · rintro ⟨y, hy, hb, k, hk, hnot⟩
    refine ⟨(basename y, k), ⟨(mapOpt_zip_mem hid (basename y) k).mpr ⟨y, hy, rfl, hk⟩, ?_⟩, hb⟩
    have : ¬ k ∈ running_id := by
      rw [mapOpt_mem_iff hrid k]
      exact hnot
    simpa using this

theorem autoscale_run_eq {rj : List (String × String)}
    {pages : List (Option (List S3Obj))} {incoming : List String}
    {running_id idnum : List Int}
    (hrid : mapOpt (fun x => running_key x.1) (filteredJobs rj) = some running_id)
    (hs3 : s3_all_contents pages = some incoming)
    (hid : mapOpt data_key incoming = some idnum) :
    autoscale_run rj pages =
      some ⟨killList (filteredJobs rj) running_id idnum,
            submitList incoming running_id idnum⟩ := by
  simp only [autoscale_run, hrid, hs3, hid]

theorem autoscale_run_some {rj : List (String × String)}
    {pages : List (Option (List S3Obj))} {res : DiffResult}
    (h : autoscale_run rj pages = some res) :
    ∃ running_id incoming idnum,
      mapOpt (fun x => running_key x.1) (filteredJobs rj) = some running_id ∧
      s3_all_contents pages = some incoming ∧
      mapOpt data_key incoming = some idnum ∧
      res = ⟨killList (filteredJobs rj) running_id idnum,
             submitList incoming running_id idnum⟩ := by
  rw [autoscale_run] at h
  cases hrid : mapOpt (fun x => running_key x.1) (filteredJobs rj) with
  | none => simp only [hrid] at h; exact Option.noConfusion h
  | some running_id =>
    simp only [hrid] at h
    cases hs3 : s3_all_contents pages with
    | none => simp only [hs3] at h; exact Option.noConfusion h
    | some incoming =>
      simp only [hs3] at h
      cases hid : mapOpt data_key incoming with
      | none => simp only [hid] at h; exact Option.noConfusion h
      | some idnum =>
        simp only [hid, Option.some.injEq] at h
        exact ⟨running_id, incoming, idnum, rfl, rfl, hid, h.symm⟩

theorem submitList_nil_running {incoming : List String} {idnum : List Int}
    (hlen : idnum.length = incoming.length) :
    submitList incoming [] idnum = incoming.map basename := by
  rw [submitList]
  have h1 : ((incoming.map basename).zip idnum).filter
      (fun p => !(([] : List Int).contains p.2)) = (incoming.map basename).zip idnum :=
    List.filter_eq_self.mpr (fun p _ => rfl)
  rw [h1]
  apply List.map_fst_zip
  rw [List.length_map]
  omega

theorem killList_nil_expected {filtered : List (String × String)} {running_id : List Int}
    (hrid : mapOpt (fun x => running_key x.1) filtered = some running_id) :
    killList filtered running_id [] = filtered.map Prod.snd := by
  rw [killList]
  by_cases hemp : filtered.isEmpty
  · rw [if_pos hemp]
    rw [List.isEmpty_iff] at hemp
    subst hemp
    rfl
  · rw [if_neg hemp]
    congr 1
    apply List.filter_eq_self.mpr
    intro x hx
    rcases exists_key_of_mem hrid hx with ⟨k, hk, hkmem⟩
    rw [hk]
    have hdead : running_id.filter (fun k => !(([] : List Int).contains k)) = running_id :=
      List.filter_eq_self.mpr (fun a _ => rfl)
    simp only [hdead]
    simpa using hkmem

/-- Claim C1: the reconciliation step of `autoscale_sensors` is a pure
set difference on correlation keys.  A job id is killed iff its
tracked (virtual-sensor) job's key has no matching inventory object
(key in T − E); an item is submitted iff its key has no tracked job
(key in E − T); so jobs with key in T ∩ E are neither killed nor
resubmitted.  Empty tracked set: nothing killed, every inventory item
submitted; empty inventory: every tracked handle killed, nothing
submitted. -/
theorem C1_job_set_differ (rj : List (String × String))
    (pages : List (Option (List S3Obj)))
    (incoming : List String) (res : DiffResult) (kid sb : String)
    (hs3 : s3_all_contents pages = some incoming)
    (h : autoscale_run rj pages = some res) :
    (kid ∈ res.kill_list ↔
      ∃ x ∈ filteredJobs rj, x.2 = kid ∧
        ∃ k, running_key x.1 = some k ∧ ¬ ∃ y ∈ incoming, data_key y = some k) ∧
    (sb ∈ res.submit_list ↔
      ∃ y ∈ incoming, basename y = sb ∧
        ∃ k, data_key y = some k ∧ ¬ ∃ x ∈ filteredJobs rj, running_key x.1 = some k) ∧
    (filteredJobs rj = [] →
      res.kill_list = [] ∧ res.submit_list = incoming.map basename) ∧
    (incoming = [] →
      res.kill_list = (filteredJobs rj).map Prod.snd ∧ res.submit_list = []) := by
  rcases autoscale_run_some h with ⟨running_id, incoming', idnum, hrid, hs3', hid, hres⟩
  rw [hs3] at hs3'
  obtain rfl : incoming' = incoming := (Option.some.inj hs3').symm
  subst hres
  refine ⟨killList_mem hrid hid kid, submitList_mem hrid hid sb, ?_, ?_⟩
  · intro hf
    rw [hf] at hrid
    obtain rfl : running_id = [] := (Option.some.inj hrid).symm
    constructor
    · show killList (filteredJobs rj) [] idnum = []
      rw [hf]
      rfl
    · exact submitList_nil_running (by rw [mapOpt_length hid])
  · intro hinc
    subst hinc
    obtain rfl : idnum = [] := (Option.some.inj hid).symm
    exact ⟨killList_nil_expected hrid, rfl⟩

/-- Witness for C1 at the spec's example scenario: tracked virtual
sensors with keys 1 and 3, inventory keys 1 and 2; the run kills job
`j3` and submits the item with key 2. -/
theorem C1_job_set_differ_witness :
    s3_all_contents [some [⟨"DG/sensor_1.csv", 10⟩, ⟨"DG/sensor_2.csv", 10⟩]] =
      some ["DG/sensor_1.csv", "DG/sensor_2.csv"] ∧
    autoscale_run
      [("twinflow-batch-virtual-sensor-1", "j1"), ("twinflow-batch-virtual-sensor-3", "j3")]
      [some [⟨"DG/sensor_1.csv", 10⟩, ⟨"DG/sensor_2.csv", 10⟩]] =
      some ⟨["j3"], ["sensor_2.csv"]⟩ ∧
    (("j3" ∈ (⟨["j3"], ["sensor_2.csv"]⟩ : DiffResult).kill_list ↔
      ∃ x ∈ filteredJobs
        [("twinflow-batch-virtual-sensor-1", "j1"), ("twinflow-batch-virtual-sensor-3", "j3")],
        x.2 = "j3" ∧ ∃ k, running_key x.1 = some k ∧
          ¬ ∃ y ∈ ["DG/sensor_1.csv", "DG/sensor_2.csv"], data_key y = some k) ∧
    ("sensor_2.csv" ∈ (⟨["j3"], ["sensor_2.csv"]⟩ : DiffResult).submit_list ↔
      ∃ y ∈ ["DG/sensor_1.csv", "DG/sensor_2.csv"], basename y = "sensor_2.csv" ∧
        ∃ k, data_key y = some k ∧ ¬ ∃ x ∈ filteredJobs
          [("twinflow-batch-virtual-sensor-1", "j1"), ("twinflow-batch-virtual-sensor-3", "j3")],
          running_key x.1 = some k) ∧
    (filteredJobs
        [("twinflow-batch-virtual-sensor-1", "j1"), ("twinflow-batch-virtual-sensor-3", "j3")] = [] →
      (⟨["j3"], ["sensor_2.csv"]⟩ : DiffResult).kill_list = [] ∧
      (⟨["j3"], ["sensor_2.csv"]⟩ : DiffResult).submit_list =
        ["DG/sensor_1.csv", "DG/sensor_2.csv"].map basename) ∧
    (["DG/sensor_1.csv", "DG/sensor_2.csv"] = ([] : List String) →
      (⟨["j3"], ["sensor_2.csv"]⟩ : DiffResult).kill_list =
        (filteredJobs
          [("twinflow-batch-virtual-sensor-1", "j1"), ("twinflow-batch-virtual-sensor-3", "j3")]).map Prod.snd ∧
      (⟨["j3"], ["sensor_2.csv"]⟩ : DiffResult).submit_list = [])) :=
  ⟨by rfl, by rfl,
    C1_job_set_differ
      [("twinflow-batch-virtual-sensor-1", "j1"), ("twinflow-batch-virtual-sensor-3", "j3")]
      [some [⟨"DG/sensor_1.csv", 10⟩, ⟨"DG/sensor_2.csv", 10⟩]]
      ["DG/sensor_1.csv", "DG/sensor_2.csv"] ⟨["j3"], ["sensor_2.csv"]⟩ "j3" "sensor_2.csv"
      (by rfl) (by rfl)⟩

theorem s3_go_none_of_mem {pages : List (Option (List S3Obj))}
    (h : none ∈ pages) (acc : List String) :
    s3_all_contents_go pages acc = none := by
  induction pages generalizing acc with
  | nil => cases h
  | cons p rest ih =>
    cases p with
    | none => rfl
    | some reps =>
      rcases List.mem_cons.mp h with h' | h'
      · exact absurd h' (by simp)
      · exact ih h' _

/-- Claim C5: a tracked virtual-sensor job whose display name does not
parse to an integer key, or an inventory object whose name does not
parse, makes the reconciliation run raise (`none`): no `DiffResult` is
produced, so no kill and no submission happens. -/
theorem C5_malformed_key_fatal (rj : List (String × String))
    (pages : List (Option (List S3Obj))) (incoming : List String)
    (hbad : (∃ x ∈ filteredJobs rj, running_key x.1 = none) ∨
            (s3_all_contents pages = some incoming ∧
             ∃ y ∈ incoming, data_key y = none)) :
    autoscale_run rj pages = none := by
  rw [autoscale_run]
  rcases hbad with ⟨x, hx, hno⟩ | ⟨hs3, y, hy, hno⟩
  · rw [mapOpt_eq_none_of_mem hx hno]
  · cases hrid : mapOpt (fun x => running_key x.1) (filteredJobs rj) with
    | none => simp only [hrid]
    | some rid =>
      simp only [hrid, hs3, mapOpt_eq_none_of_mem hy hno]

/-- Witness for C5: a tracked job named `virtual-sensor-x` has no
integer key, and the run raises. -/
theorem C5_malformed_key_fatal_witness :
    (∃ x ∈ filteredJobs [("virtual-sensor-x", "j1")], running_key x.1 = none) ∧
    autoscale_run [("virtual-sensor-x", "j1")] [some []] = none :=
  ⟨by decide,
   C5_malformed_key_fatal [("virtual-sensor-x", "j1")] [some []] []
     (Or.inl (by decide))⟩

/-- Claim C10: a listing page without a `Contents` field makes
`s3_all_contents` raise `KeyError` (`none`) rather than return an
empty list, and the reconciliation run consequently aborts before the
differ produces any kill/submit lists. -/
theorem C10_missing_contents_aborts (rj : List (String × String))
    (pages : List (Option (List S3Obj))) (h : none ∈ pages) :
    s3_all_contents pages = none ∧ autoscale_run rj pages = none := by
  have hs3 : s3_all_contents pages = none := s3_go_none_of_mem h []
  refine ⟨hs3, ?_⟩
  rw [autoscale_run]
  cases hrid : mapOpt (fun x => running_key x.1) (filteredJobs rj) with
  | none => simp only [hrid]
  | some rid => simp only [hrid, hs3]

/-- Witness for C10: the single page returned for an empty prefix has
no `Contents` field; the listing raises and the run aborts. -/
theorem C10_missing_contents_aborts_witness :
    (none ∈ ([none] : List (Option (List S3Obj)))) ∧
    s3_all_contents [none] = none ∧
    autoscale_run [] [none] = none :=
  ⟨by decide, C10_missing_contents_aborts [] [none] (by decide)⟩

/-! ## Helper lemmas about the completion poller -/

theorem mem_foldl_erase {ds running : List String} {j : String}
    (hin : j ∈ running) (hnd : j ∉ ds) :
    j ∈ ds.foldl (fun rj d => rj.erase d) running := by
  induction ds generalizing running with
  | nil => exact hin
  | cons d ds ih =>
    have hne : j ≠ d := fun h => hnd (List.mem_cons.mpr (Or.inl h))
    have hnd' : j ∉ ds := fun h => hnd (List.mem_cons_of_mem d h)
    exact ih ((List.mem_erase_of_ne hne).mpr hin) hnd'

theorem pollStep_remove {q : List String → List (String × String)}
    {running : List String} {j : String}
    (hin : j ∈ running) (hout : j ∉ pollStep q running) :
    ∃ s, (j, s) ∈ q (running.take 100) ∧ (s = "SUCCEEDED" ∨ s = "FAILED") := by
  rw [pollStep] at hout
  have hjd : j ∈ ((q (running.take 100)).filter
      (fun x => x.2 == "FAILED" || x.2 == "SUCCEEDED")).map Prod.fst := by
    by_contra hnd
    exact hout (mem_foldl_erase hin hnd)
  rw [List.mem_map] at hjd
  rcases hjd with ⟨x, hx, hfst⟩
  rw [List.mem_filter] at hx
  refine ⟨x.2, ?_, ?_⟩
  · have hx1 : (x.1, x.2) ∈ q (running.take 100) := by
      simpa using hx.1
    rw [hfst] at hx1
    exact hx1
  · have := hx.2
    simp only [Bool.or_eq_true, beq_iff_eq] at this
    exact this.symm

theorem exists_removal_round {query : Nat → List String → List (String × String)}
    {running : List String} {j : String} {n : Nat}
    (h0 : j ∈ running) (hn : j ∉ pollState query running n) :
    ∃ r, r < n ∧ j ∈ pollState query running r ∧
      j ∉ pollState query running (r + 1) := by
  induction n with
  | zero => exact absurd h0 hn
  | succ n ih =>
    by_cases hjn : j ∈ pollState query running n
    · exact ⟨n, Nat.lt_succ_self n, hjn, hn⟩
    · rcases ih hjn with ⟨r, hr, h1, h2⟩
      exact ⟨r, Nat.lt_succ_of_lt hr, h1, h2⟩

/-- Claim C2: the completion poller first deduplicates its input and
returns only once the tracked set is empty (`pollState … n = []`), and
every input handle was removed in a round whose status query reported
it with terminal status SUCCEEDED or FAILED. -/
theorem C2_completion_poller (query : Nat → List String → List (String × String))
    (all_jobs : List String) (n : Nat) (j : String)
    (hret : pollState query all_jobs.dedup n = [])
    (hj : j ∈ all_jobs) :
    ∃ r, r < n ∧ j ∈ pollState query all_jobs.dedup r ∧
      j ∉ pollState query all_jobs.dedup (r + 1) ∧
      ∃ s, (j, s) ∈ query r ((pollState query all_jobs.dedup r).take 100) ∧
        (s = "SUCCEEDED" ∨ s = "FAILED") := by
  have h0 : j ∈ all_jobs.dedup := List.mem_dedup.mpr hj
  have hn : j ∉ pollState query all_jobs.dedup n := by
    rw [hret]
    simp
  rcases exists_removal_round h0 hn with ⟨r, hr, h1, h2⟩
  refine ⟨r, hr, h1, h2, ?_⟩
  by_cases hemp : (pollState query all_jobs.dedup r).isEmpty
  · rw [List.isEmpty_iff] at hemp
    rw [hemp] at h1
    cases h1
  · have h2' : j ∉ pollStep (query r) (pollState query all_jobs.dedup r) := by
      rw [pollState] at h2
      simpa only [if_neg hemp] using h2
    exact pollStep_remove h1 h2'

/-- Witness for C2: two distinct handles, an oracle reporting
everything SUCCEEDED; the poller returns after one round and the
removal of `j1` is justified by the round-0 query. -/
theorem C2_completion_poller_witness :
    pollState queryAllDone (["j1", "j2", "j1"].dedup) 1 = [] ∧
    "j1" ∈ ["j1", "j2", "j1"] ∧
    (∃ r, r < 1 ∧ "j1" ∈ pollState queryAllDone (["j1", "j2", "j1"].dedup) r ∧
      "j1" ∉ pollState queryAllDone (["j1", "j2", "j1"].dedup) (r + 1) ∧
      ∃ s, ("j1", s) ∈ queryAllDone r
          ((pollState queryAllDone (["j1", "j2", "j1"].dedup) r).take 100) ∧
        (s = "SUCCEEDED" ∨ s = "FAILED")) :=
  ⟨by decide, by decide,
   C2_completion_poller queryAllDone ["j1", "j2", "j1"] 1 "j1" (by decide) (by decide)⟩

set_option maxRecDepth 8192 in
/-- Claim C3 counterexample: with 250 outstanding handles and an
oracle that reports nothing terminal, a round issues one describe
call, not three, and handle `job149` (index 149) is outstanding but
covered by no describe call of that round. -/
theorem C3_three_calls_counterexample :
    (describeBatches (pollState queryAllRunning jobs250 0)).length = 1 ∧
    (describeBatches (pollState queryAllRunning jobs250 0)).length ≠ 3 ∧
    "job149" ∈ pollState queryAllRunning jobs250 0 ∧
    ∀ b ∈ describeBatches (pollState queryAllRunning jobs250 0), "job149" ∉ b := by
  refine ⟨rfl, by decide, by decide, by decide⟩

/-- Claim C3 (amended): for an input of exactly 250 handles, every
polling round issues exactly one describe call, covering at most 100
(the first 100) of the outstanding handles; the rest are only queried
in later rounds. -/
theorem C3_one_call_per_round (query : Nat → List String → List (String × String))
    (running : List String) (r : Nat) (_h : running.length = 250) :
    (describeBatches (pollState query running r)).length = 1 ∧
    ∀ b ∈ describeBatches (pollState query running r),
      b.length ≤ 100 ∧ ∀ j ∈ b, j ∈ pollState query running r := by
  refine ⟨rfl, ?_⟩
  intro b hb
  rw [describeBatches] at hb
  have hbeq : b = (pollState query running r).take 100 := by
    simpa using hb
  subst hbeq
  exact ⟨List.length_take_le 100 _, fun j hj => List.take_subset 100 _ hj⟩

set_option maxRecDepth 8192 in
/-- Witness for C3 (amended) at the 250-handle fixture. -/
theorem C3_one_call_per_round_witness :
    jobs250.length = 250 ∧
    ((describeBatches (pollState queryAllRunning jobs250 0)).length = 1 ∧
    ∀ b ∈ describeBatches (pollState queryAllRunning jobs250 0),
      b.length ≤ 100 ∧ ∀ j ∈ b, j ∈ pollState queryAllRunning jobs250 0) :=
  ⟨by decide, C3_one_call_per_round queryAllRunning jobs250 0 (by decide)⟩

/-! ## Retry/backoff and error-propagation claims -/

/-- Claim C4: the retry wrapper applied to submission, polling and
kill returns the wrapped call's result without raising when the first
two attempts fail with a rate-limit-marker error and the third
succeeds, sleeping exponentially increasing delays in between; a
failure without the marker propagates immediately with no sleep. -/
theorem C4_exponential_backoff {α : Type} (call : Nat → Except String α) (v : α)
    (base : Nat) (e0 e1 : String)
    (hb : 0 < base)
    (h0 : call 0 = Except.error e0) (hm0 : containsMarker e0 = true)
    (h1 : call 1 = Except.error e1) (hm1 : containsMarker e1 = true)
    (h2 : call 2 = Except.ok v)
    (callBad : Nat → Except String α) (e : String) (m : Nat)
    (hbad : callBad 0 = Except.error e) (hmbad : containsMarker e = false) :
    backoffRun call base 3 0 = (Except.ok v, [base * 2 ^ 0, base * 2 ^ 1]) ∧
    base * 2 ^ 0 < base * 2 ^ 1 ∧
    backoffRun callBad base (m + 1) 0 = (Except.error e, []) := by
  refine ⟨?_, ?_, ?_⟩
  · simp only [backoffRun]
    rw [h0, h1, h2]
    simp [hm0, hm1]
  · rw [pow_zero, pow_one, mul_one]
    omega
  · simp only [backoffRun]
    rw [hbad]
    simp [hmbad]

/-- Witness for C4: two throttled attempts then success returns 42
with delays 1 and 2; an `AccessDenied` failure propagates at once. -/
theorem C4_exponential_backoff_witness :
    (fun i => if i < 2 then Except.error "Too Many Requests" else Except.ok 42) 0 =
      (Except.error "Too Many Requests" : Except String Nat) ∧
    containsMarker "Too Many Requests" = true ∧
    containsMarker "AccessDenied" = false ∧
    (backoffRun (fun i => if i < 2 then Except.error "Too Many Requests" else Except.ok 42)
        1 3 0 = (Except.ok 42, [1 * 2 ^ 0, 1 * 2 ^ 1]) ∧
      1 * 2 ^ 0 < 1 * 2 ^ 1 ∧
      backoffRun (fun _ => (Except.error "AccessDenied" : Except String Nat)) 1 (2 + 1) 0 =
        (Except.error "AccessDenied", [])) :=
  ⟨by rfl, by decide, by decide,
   C4_exponential_backoff
     (fun i => if i < 2 then Except.error "Too Many Requests" else Except.ok 42) 42 1
     "Too Many Requests" "Too Many Requests" (by decide)
     (by rfl) (by decide) (by rfl) (by decide) (by rfl)
     (fun _ => Except.error "AccessDenied") "AccessDenied" 2 (by rfl) (by decide)⟩

/-- Claim C7 counterexample: a `ClientError` with code `AccessDenied`
(neither transient throttling nor an already-exists/already-gone
condition) is swallowed by `s3_object_exist`: the function returns
`None` instead of re-raising. -/
theorem C7_swallow_counterexample :
    s3_object_exist (S3Outcome.clientError "AccessDenied") = PyResult.ret none := by
  decide

theorem generateQueue_go_true (create : Nat → Except String Unit) :
    ∀ n i, generateQueue_go create n i true = true := by
  intro n
  induction n with
  | zero => intro i; rfl
  | succ n ih =>
    intro i
    simp only [generateQueue_go]
    cases hc : create i with
    | ok v => exact ih (i + 1)
    | error e =>
      cases hm : containsAlreadyExists e <;> simp [hm, ih]

/-- Claim C7 (amended): `s3_object_exist` swallows every `ClientError`
other than `NoSuchKey` by returning `None`, while non-`ClientError`
exceptions propagate; `terminateBatch` swallows all queue and
compute-environment teardown errors except a failure of
`update_compute_environment`, which propagates unchanged; and
`_generateQueue` catches every `create_job_queue` error, treats
"already exists" as success, retries any other error (up to 3
attempts), and after exhaustion raises a fresh `ValueError` in place
of the original error. -/
theorem C7_error_propagation (code msg : String) (hcode : code ≠ "NoSuchKey")
    (updQ : Except String Unit) (delQ : Nat → Except String Unit)
    (delCE : Nat → Except String Unit) (e : String)
    (createFail createOk createEx : Nat → Except String Unit)
    (e0 e1 e2 ee : String)
    (hf0 : createFail 0 = Except.error e0) (hn0 : containsAlreadyExists e0 = false)
    (hf1 : createFail 1 = Except.error e1) (hn1 : containsAlreadyExists e1 = false)
    (hf2 : createFail 2 = Except.error e2) (hn2 : containsAlreadyExists e2 = false)
    (hok : createOk 0 = Except.ok ())
    (hex : createEx 0 = Except.error ee) (hexm : containsAlreadyExists ee = true) :
    s3_object_exist (S3Outcome.clientError code) = PyResult.ret none ∧
    s3_object_exist (S3Outcome.otherError msg) = PyResult.raised msg ∧
    terminateBatch_run updQ delQ (Except.error e) delCE = PyResult.raised e ∧
    (∃ b, terminateBatch_run updQ delQ (Except.ok ()) delCE = PyResult.ret b) ∧
    generateQueue_run createFail = PyResult.raised
      "ERROR: unable to create job queue for the AWS Batch compute environment." ∧
    generateQueue_run createOk = PyResult.ret () ∧
    generateQueue_run createEx = PyResult.ret () := by
  refine ⟨?_, rfl, rfl, ⟨_, rfl⟩, ?_, ?_, ?_⟩
  · simp [s3_object_exist, hcode]
  · have hgo : generateQueue_go createFail 3 0 false = false := by
      simp only [generateQueue_go]
      rw [hf0, hf1, hf2]
      simp [hn0, hn1, hn2]
    rw [generateQueue_run, hgo]
    rfl
  · have hgo : generateQueue_go createOk 3 0 false = true := by
      have h1 : generateQueue_go createOk 2 1 true = true :=
        generateQueue_go_true createOk 2 1
      simp only [generateQueue_go] at h1 ⊢
      rw [hok]
      exact h1
    rw [generateQueue_run, hgo]
    rfl
  · have hgo : generateQueue_go createEx 3 0 false = true := by
      simp only [generateQueue_go]
      rw [hex]
      simp [hexm]
    rw [generateQueue_run, hgo]
    rfl

/-- Witness for C7 (amended): `AccessDenied` is swallowed by the
existence check while `boom` propagates; a failing
`update_compute_environment` propagates from teardown while teardown
otherwise returns normally even though every delete fails; queue
creation failing three times with `AccessDenied` raises the fresh
`ValueError` message, while a success or an "already exists" error
returns normally. -/
theorem C7_error_propagation_witness :
    ("AccessDenied" : String) ≠ "NoSuchKey" ∧
    containsAlreadyExists "AccessDenied" = false ∧
    containsAlreadyExists "Queue already exists here" = true ∧
    (s3_object_exist (S3Outcome.clientError "AccessDenied") = PyResult.ret none ∧
      s3_object_exist (S3Outcome.otherError "boom") = PyResult.raised "boom" ∧
      terminateBatch_run (Except.error "q") (fun _ => Except.error "d")
        (Except.error "ce") (fun _ => Except.error "c") = PyResult.raised "ce" ∧
      (∃ b, terminateBatch_run (Except.error "q") (fun _ => Except.error "d")
        (Except.ok ()) (fun _ => Except.error "c") = PyResult.ret b) ∧
      generateQueue_run (fun _ => Except.error "AccessDenied") = PyResult.raised
        "ERROR: unable to create job queue for the AWS Batch compute environment." ∧
      generateQueue_run (fun _ => Except.ok ()) = PyResult.ret () ∧
      generateQueue_run (fun _ => Except.error "Queue already exists here") =
        PyResult.ret ()) :=
  ⟨by decide, by decide, by decide,
   C7_error_propagation "AccessDenied" "boom" (by decide)
     (Except.error "q") (fun _ => Except.error "d")
     (fun _ => Except.error "c") "ce"
     (fun _ => Except.error "AccessDenied") (fun _ => Except.ok ())
     (fun _ => Except.error "Queue already exists here")
     "AccessDenied" "AccessDenied" "AccessDenied" "Queue already exists here"
     (by rfl) (by decide) (by rfl) (by decide) (by rfl) (by decide)
     (by rfl) (by rfl) (by decide)⟩

/-! ## Active job lister and inventory listing claims -/

theorem foldl_pages_eq (ps : List (Option (List JobEntry)))
    (lst : List (String × String)) :
    ps.foldl (fun lst page =>
      match page with
      | some jobs => lst ++ jobs.map (fun j => (j.name, j.id))
      | none => lst) lst
    = lst ++ (pagesJoin ps).map (fun j => (j.name, j.id)) := by
  induction ps generalizing lst with
  | nil => simp [pagesJoin]
  | cons p rest ih =>
    cases p with
    | none =>
      rw [List.foldl_cons]
      exact ih lst
    | some js =>
      rw [List.foldl_cons]
      show (rest.foldl _ (lst ++ js.map (fun j => (j.name, j.id)))) = _
      rw [ih]
      simp [pagesJoin, List.append_assoc]

theorem get_running_jobs_eq (pages : String → List (Option (List JobEntry))) :
    get_running_jobs pages =
      (pagesJoin (pages "SUBMITTED")).map (fun j => (j.name, j.id)) ++
      ((pagesJoin (pages "PENDING")).map (fun j => (j.name, j.id)) ++
      ((pagesJoin (pages "RUNNABLE")).map (fun j => (j.name, j.id)) ++
      ((pagesJoin (pages "STARTING")).map (fun j => (j.name, j.id)) ++
      (pagesJoin (pages "RUNNING")).map (fun j => (j.name, j.id))))) := by
  rw [get_running_jobs, jobStatusList]
  simp only [List.foldl_cons, List.foldl_nil]
  rw [foldl_pages_eq, foldl_pages_eq, foldl_pages_eq, foldl_pages_eq, foldl_pages_eq]
  simp [List.append_assoc]

theorem get_running_jobs_mem (pages : String → List (Option (List JobEntry)))
    (p : String × String) :
    p ∈ get_running_jobs pages ↔
      ∃ s ∈ jobStatusList, ∃ j ∈ pagesJoin (pages s), p = (j.name, j.id) := by
  rw [get_running_jobs_eq]
  simp only [List.mem_append, List.mem_map, jobStatusList, List.mem_cons,
    List.not_mem_nil, or_false]
  constructor
  · rintro (⟨j, hj, hp⟩ | ⟨j, hj, hp⟩ | ⟨j, hj, hp⟩ | ⟨j, hj, hp⟩ | ⟨j, hj, hp⟩)
    · exact ⟨"SUBMITTED", Or.inl rfl, j, hj, hp.symm⟩
    · exact ⟨"PENDING", Or.inr (Or.inl rfl), j, hj, hp.symm⟩
    · exact ⟨"RUNNABLE", Or.inr (Or.inr (Or.inl rfl)), j, hj, hp.symm⟩
    · exact ⟨"STARTING", Or.inr (Or.inr (Or.inr (Or.inl rfl))), j, hj, hp.symm⟩
    · exact ⟨"RUNNING", Or.inr (Or.inr (Or.inr (Or.inr rfl))), j, hj, hp.symm⟩
  · rintro ⟨s, hs, j, hj, hp⟩
    rcases hs with rfl | rfl | rfl | rfl | rfl
    · exact Or.inl ⟨j, hj, hp.symm⟩
    · exact Or.inr (Or.inl ⟨j, hj, hp.symm⟩)
    · exact Or.inr (Or.inr (Or.inl ⟨j, hj, hp.symm⟩))
    · exact Or.inr (Or.inr (Or.inr (Or.inl ⟨j, hj, hp.symm⟩)))
    · exact Or.inr (Or.inr (Or.inr (Or.inr ⟨j, hj, hp.symm⟩)))

/-- Claim C8: assuming the backing service returns, for each status
filter, exactly the queue's jobs with that status (across all pages),
`get_running_jobs` contains a (name, id) pair iff some queue job with
a non-terminal status carries it, and every returned pair comes from a
job that is neither SUCCEEDED nor FAILED. -/
theorem C8_active_job_lister (pages : String → List (Option (List JobEntry)))
    (queue : List JobEntry) (n i : String)
    (hpages : ∀ s, pagesJoin (pages s) = queue.filter (fun j => j.status == s)) :
    ((n, i) ∈ get_running_jobs pages ↔
      ∃ j ∈ queue, j.name = n ∧ j.id = i ∧ j.status ∈ jobStatusList) ∧
    (∀ p ∈ get_running_jobs pages, ∃ j ∈ queue,
      p = (j.name, j.id) ∧ j.status ≠ "SUCCEEDED" ∧ j.status ≠ "FAILED") := by
  constructor
  · rw [get_running_jobs_mem]
    constructor
    · rintro ⟨s, hs, j, hj, hp⟩
      rw [hpages s, List.mem_filter] at hj
      have hst : j.status = s := by simpa using hj.2
      rcases Prod.mk.injEq .. ▸ hp with ⟨hn, hi⟩
      exact ⟨j, hj.1, hn.symm, hi.symm, by rw [hst]; exact hs⟩
    · rintro ⟨j, hjq, hn, hi, hst⟩
      refine ⟨j.status, hst, j, ?_, by rw [hn, hi]⟩
      rw [hpages j.status, List.mem_filter]
      exact ⟨hjq, by simp⟩
  · intro p hp
    rw [get_running_jobs_mem] at hp
    rcases hp with ⟨s, hs, j, hj, hp⟩
    rw [hpages s, List.mem_filter] at hj
    have hst : j.status = s := by simpa using hj.2
    have hterm : s ≠ "SUCCEEDED" ∧ s ≠ "FAILED" := by
      simp only [jobStatusList, List.mem_cons, List.not_mem_nil, or_false] at hs
      rcases hs with rfl | rfl | rfl | rfl | rfl
      · exact ⟨by decide, by decide⟩
      · exact ⟨by decide, by decide⟩
      · exact ⟨by decide, by decide⟩
      · exact ⟨by decide, by decide⟩
      · exact ⟨by decide, by decide⟩
    exact ⟨j, hj.1, hp, by rw [hst]; exact hterm.1, by rw [hst]; exact hterm.2⟩

/-- Witness for C8: a queue with one RUNNING and one SUCCEEDED job and
a faithful one-page-per-status paginator; `("a","1")` is listed. -/
theorem C8_active_job_lister_witness :
    (∀ s, pagesJoin ((fun s => [some (([⟨"a", "1", "RUNNING"⟩,
        ⟨"b", "2", "SUCCEEDED"⟩] : List JobEntry).filter (fun j => j.status == s))]) s) =
      ([⟨"a", "1", "RUNNING"⟩, ⟨"b", "2", "SUCCEEDED"⟩] : List JobEntry).filter
        (fun j => j.status == s)) ∧
    ((("a", "1") ∈ get_running_jobs (fun s => [some (([⟨"a", "1", "RUNNING"⟩,
        ⟨"b", "2", "SUCCEEDED"⟩] : List JobEntry).filter (fun j => j.status == s))]) ↔
      ∃ j ∈ ([⟨"a", "1", "RUNNING"⟩, ⟨"b", "2", "SUCCEEDED"⟩] : List JobEntry),
        j.name = "a" ∧ j.id = "1" ∧ j.status ∈ jobStatusList) ∧
    (∀ p ∈ get_running_jobs (fun s => [some (([⟨"a", "1", "RUNNING"⟩,
        ⟨"b", "2", "SUCCEEDED"⟩] : List JobEntry).filter (fun j => j.status == s))]),
      ∃ j ∈ ([⟨"a", "1", "RUNNING"⟩, ⟨"b", "2", "SUCCEEDED"⟩] : List JobEntry),
        p = (j.name, j.id) ∧ j.status ≠ "SUCCEEDED" ∧ j.status ≠ "FAILED")) :=
  ⟨fun s => by simp [pagesJoin],
   C8_active_job_lister
     (fun s => [some (([⟨"a", "1", "RUNNING"⟩,
        ⟨"b", "2", "SUCCEEDED"⟩] : List JobEntry).filter (fun j => j.status == s))])
     [⟨"a", "1", "RUNNING"⟩, ⟨"b", "2", "SUCCEEDED"⟩] "a" "1"
     (fun s => by simp [pagesJoin])⟩

theorem s3_go_eq {pages : List (Option (List S3Obj))}
    (h : ∀ p ∈ pages, p ≠ none) (acc : List String) :
    s3_all_contents_go pages acc =
      some (acc ++ ((allObjs pages).filter (fun o => 1 < o.size)).map S3Obj.key) := by
  induction pages generalizing acc with
  | nil => simp [s3_all_contents_go, allObjs]
  | cons p rest ih =>
    cases p with
    | none => exact absurd rfl (h none (List.mem_cons_self _ _))
    | some reps =>
      rw [s3_all_contents_go]
      rw [ih (fun q hq => h q (List.mem_cons_of_mem _ hq))]
      simp [allObjs, List.filter_append, List.map_append, List.append_assoc]

/-- Claim C9: when every listing page has a `Contents` field,
`s3_all_contents` returns exactly the keys of the objects, across all
pages in order, whose size is strictly greater than 1 byte; zero and
one-byte placeholder entries are excluded. -/
theorem C9_inventory_filter (pages : List (Option (List S3Obj)))
    (h : ∀ p ∈ pages, p ≠ none) :
    s3_all_contents pages =
      some (((allObjs pages).filter (fun o => 1 < o.size)).map S3Obj.key) := by
  rw [s3_all_contents, s3_go_eq h]
  rfl

/-- Witness for C9: a folder marker of size 0 and a 1-byte placeholder
are dropped; the two real objects' keys are returned in page order. -/
theorem C9_inventory_filter_witness :
    (∀ p ∈ ([some [⟨"a/", 0⟩, ⟨"a/f_1.csv", 10⟩],
            some [⟨"b_2.csv", 1⟩, ⟨"c_3.csv", 5⟩]] : List (Option (List S3Obj))), p ≠ none) ∧
    s3_all_contents ([some [⟨"a/", 0⟩, ⟨"a/f_1.csv", 10⟩],
                     some [⟨"b_2.csv", 1⟩, ⟨"c_3.csv", 5⟩]] : List (Option (List S3Obj))) =
      some (((allObjs ([some [⟨"a/", 0⟩, ⟨"a/f_1.csv", 10⟩],
              some [⟨"b_2.csv", 1⟩, ⟨"c_3.csv", 5⟩]] : List (Option (List S3Obj)))).filter
        (fun o => 1 < o.size)).map S3Obj.key) :=
  ⟨by decide,
   C9_inventory_filter
     ([some [⟨"a/", 0⟩, ⟨"a/f_1.csv", 10⟩],
       some [⟨"b_2.csv", 1⟩, ⟨"c_3.csv", 5⟩]] : List (Option (List S3Obj)))
     (by decide)⟩

/-! ## Idempotence of the reconciliation -/

theorem mem_filteredJobs_vs {rj : List (String × String)} {x : String × String}
    (hx : x ∈ filteredJobs rj) : containsVS x.1 = true := by
  rw [filteredJobs] at hx
  by_cases h : rj.isEmpty
  · rw [if_pos h] at hx
    cases hx
  · rw [if_neg h] at hx
    exact (List.mem_filter.mp hx).2

theorem killList_eq_nil {filtered : List (String × String)}
    {running_id idnum : List Int}
    (h : ∀ k ∈ running_id, k ∈ idnum) :
    killList filtered running_id idnum = [] := by
  have hdead : running_id.filter (fun k => !(idnum.contains k)) = [] := by
    apply List.filter_eq_nil_iff.mpr
    intro k hk
    simp [h k hk]
  simp only [killList, hdead]
  by_cases hemp : filtered.isEmpty
  · rw [if_pos hemp]
  · rw [if_neg hemp]
    rw [List.map_eq_nil_iff]
    apply List.filter_eq_nil_iff.mpr
    intro x _
    cases hrk : running_key x.1 <;> simp [hrk]

/-- Claim C6: once the first reconciliation run's kills and
submissions have taken effect (killed virtual sensors leave the
tracked set, submitted items enter it under `job_spin`'s naming) and
the inventory is unchanged, a second run produces empty kill and
submit lists.  The two naming-convention hypotheses state that a
submitted job's display name parses back to the item's key and
contains the `virtual-sensor` marker. -/
theorem C6_differ_idempotent (rj : List (String × String))
    (pages : List (Option (List S3Obj))) (incoming : List String)
    (res : DiffResult) (newId : String → String)
    (hs3 : s3_all_contents pages = some incoming)
    (h1 : autoscale_run rj pages = some res)
    (hrt : ∀ y ∈ incoming, running_key (submitted_name (basename y)) = data_key y)
    (hvs : ∀ y ∈ incoming, containsVS (submitted_name (basename y)) = true) :
    autoscale_run (nextTracked rj incoming res newId) pages = some ⟨[], []⟩ := by
  rcases autoscale_run_some h1 with ⟨running_id, incoming', idnum, hrid, hs3', hid, hres⟩
  rw [hs3] at hs3'
  obtain rfl : incoming = incoming' := Option.some.inj hs3'
  have hsubmem : ∀ b, b ∈ res.submit_list ↔
      ∃ y ∈ incoming, basename y = b ∧
        ∃ k, data_key y = some k ∧
          ¬ ∃ x ∈ filteredJobs rj, running_key x.1 = some k := by
    intro b
    rw [hres]
    exact submitList_mem hrid hid b
  have hA : filteredJobs (nextTracked rj incoming res newId) =
      survivors rj incoming ++ submittedJobs res newId := by
    rw [nextTracked, filteredJobs]
    by_cases hemp : (survivors rj incoming ++ submittedJobs res newId).isEmpty
    · rw [if_pos hemp]
      rw [List.isEmpty_iff] at hemp
      exact hemp.symm
    · rw [if_neg hemp, List.filter_append]
      congr 1
      · apply List.filter_eq_self.mpr
        intro x hx
        rw [survivors] at hx
        exact mem_filteredJobs_vs (List.mem_filter.mp hx).1
      · apply List.filter_eq_self.mpr
        intro x hx
        rw [submittedJobs] at hx
        rcases List.mem_map.mp hx with ⟨b, hb, rfl⟩
        rcases (hsubmem b).mp hb with ⟨y, hy, hby, -⟩
        show containsVS (submitted_name b) = true
        rw [← hby]
        exact hvs y hy
  have hsurv_sub : ∀ x ∈ survivors rj incoming, x ∈ filteredJobs rj := by
    intro x hx
    rw [survivors] at hx
    exact (List.mem_filter.mp hx).1
  rcases mapOpt_of_forall_isSome (f := fun x => running_key x.1)
      (l := survivors rj incoming) (by
    intro x hx
    rcases exists_key_of_mem hrid (hsurv_sub x hx) with ⟨k, hk, -⟩
    show (running_key x.1).isSome
    rw [hk]
    rfl) with ⟨ks_s, hks_s⟩
  rcases mapOpt_of_forall_isSome (f := fun x => running_key x.1)
      (l := submittedJobs res newId) (by
    intro x hx
    rw [submittedJobs] at hx
    rcases List.mem_map.mp hx with ⟨b, hb, rfl⟩
    rcases (hsubmem b).mp hb with ⟨y, hy, hby, k, hk, -⟩
    show (running_key (submitted_name b)).isSome
    rw [← hby, hrt y hy, hk]
    rfl) with ⟨ks_n, hks_n⟩
  have hrid₂ : mapOpt (fun x => running_key x.1)
      (filteredJobs (nextTracked rj incoming res newId)) = some (ks_s ++ ks_n) := by
    rw [hA]
    exact mapOpt_append_some hks_s hks_n
  have hC : ∀ k ∈ ks_s ++ ks_n, k ∈ idnum := by
    intro k hk
    rcases List.mem_append.mp hk with hk | hk
    · rcases (mapOpt_mem_iff hks_s k).mp hk with ⟨x, hx, hkx⟩
      rw [survivors, List.mem_filter] at hx
      have hq := hx.2
      simp only [hkx] at hq
      rw [keyExpected, List.any_eq_true] at hq
      rcases hq with ⟨y, hy, hkq⟩
      rw [beq_iff_eq] at hkq
      exact (mapOpt_mem_iff hid k).mpr ⟨y, hy, hkq⟩
    · rcases (mapOpt_mem_iff hks_n k).mp hk with ⟨x, hx, hkx⟩
      rw [submittedJobs] at hx
      rcases List.mem_map.mp hx with ⟨b, hb, rfl⟩
      rcases (hsubmem b).mp hb with ⟨y, hy, hby, k', hk', -⟩
      have h2 : running_key (submitted_name b) = data_key y := by
        rw [← hby]
        exact hrt y hy
      have hdk : data_key y = some k := by
        rw [← h2]
        exact hkx
      exact (mapOpt_mem_iff hid k).mpr ⟨y, hy, hdk⟩
  have hkill : killList (filteredJobs (nextTracked rj incoming res newId))
      (ks_s ++ ks_n) idnum = [] := killList_eq_nil hC
  have hsubmit : submitList incoming (ks_s ++ ks_n) idnum = [] := by
    rw [submitList, List.map_eq_nil_iff]
    apply List.filter_eq_nil_iff.mpr
    rintro ⟨b, k⟩ hzip
    rcases (mapOpt_zip_mem hid b k).mp hzip with ⟨y, hy, hb, hk⟩
    suffices hmem : k ∈ ks_s ++ ks_n by
      show ¬((!((ks_s ++ ks_n).contains k)) = true)
      have hc : (ks_s ++ ks_n).contains k = true := by simpa using hmem
      rw [hc]
      decide
    by_cases hkr : k ∈ running_id
    · rcases (mapOpt_mem_iff hrid k).mp hkr with ⟨x, hxF, hxk⟩
      apply List.mem_append.mpr
      apply Or.inl
      apply (mapOpt_mem_iff hks_s k).mpr
      refine ⟨x, ?_, hxk⟩
      rw [survivors, List.mem_filter]
      refine ⟨hxF, ?_⟩
      simp only [hxk]
      rw [keyExpected, List.any_eq_true]
      refine ⟨y, hy, ?_⟩
      rw [hk]
      simp
    · have hbsub : basename y ∈ res.submit_list := by
        apply (hsubmem (basename y)).mpr
        exact ⟨y, hy, rfl, k, hk,
          fun ⟨x, hxF, hxk⟩ => hkr ((mapOpt_mem_iff hrid k).mpr ⟨x, hxF, hxk⟩)⟩
      apply List.mem_append.mpr
      apply Or.inr
      apply (mapOpt_mem_iff hks_n k).mpr
      refine ⟨(submitted_name (basename y), newId (basename y)), ?_, ?_⟩
      · rw [submittedJobs]
        exact List.mem_map.mpr ⟨basename y, hbsub, rfl⟩
      · show running_key (submitted_name (basename y)) = some k
        rw [hrt y hy]
        exact hk
  rw [autoscale_run_eq hrid₂ hs3 hid, hkill, hsubmit]

/-- Witness for C6 at the spec's example scenario: after killing `j3`
and submitting the item with key 2, the second run finds nothing to
kill or submit. -/
theorem C6_differ_idempotent_witness :
    s3_all_contents [some [⟨"DG/sensor_1.csv", 10⟩, ⟨"DG/sensor_2.csv", 10⟩]] =
      some ["DG/sensor_1.csv", "DG/sensor_2.csv"] ∧
    autoscale_run
      [("twinflow-batch-virtual-sensor-1", "j1"), ("twinflow-batch-virtual-sensor-3", "j3")]
      [some [⟨"DG/sensor_1.csv", 10⟩, ⟨"DG/sensor_2.csv", 10⟩]] =
      some ⟨["j3"], ["sensor_2.csv"]⟩ ∧
    (∀ y ∈ ["DG/sensor_1.csv", "DG/sensor_2.csv"],
      running_key (submitted_name (basename y)) = data_key y) ∧
    (∀ y ∈ ["DG/sensor_1.csv", "DG/sensor_2.csv"],
      containsVS (submitted_name (basename y)) = true) ∧
    autoscale_run
      (nextTracked
        [("twinflow-batch-virtual-sensor-1", "j1"), ("twinflow-batch-virtual-sensor-3", "j3")]
        ["DG/sensor_1.csv", "DG/sensor_2.csv"]
        ⟨["j3"], ["sensor_2.csv"]⟩ (fun _ => "jNew"))
      [some [⟨"DG/sensor_1.csv", 10⟩, ⟨"DG/sensor_2.csv", 10⟩]] = some ⟨[], []⟩ :=
  ⟨by rfl, by rfl, by decide, by decide,
   C6_differ_idempotent
     [("twinflow-batch-virtual-sensor-1", "j1"), ("twinflow-batch-virtual-sensor-3", "j3")]
     [some [⟨"DG/sensor_1.csv", 10⟩, ⟨"DG/sensor_2.csv", 10⟩]]
     ["DG/sensor_1.csv", "DG/sensor_2.csv"]
     ⟨["j3"], ["sensor_2.csv"]⟩ (fun _ => "jNew")
     (by rfl) (by rfl) (by decide) (by decide)⟩

end Twinmodules
